import Mathlib

/-!
Shallow embedding of the resumable segment-processing and evaluation
pipeline of the auto-llm-empathy repository, together with theorems
settling the specification claims about it.

The Python sources embedded here are:
  analyze.py                         (evaluator: numeric mapping, confusion matrix)
  auto-classify.py                   (resumable batch runner, rating worker)
  auto-classify-transcripts-gpt4o.py (match verdict, resumable runner)
  auto-classify-wavs.py              (filename key extraction, wav runner)
  auto-classify-wavs-gemini.py       (match verdict variant)
  extractor.py                       (time codec, feature-extraction run)
-/

/-! ### Python string primitives

Models of the Python string operations the scripts use: `str.lower`,
`str.strip`, and the regex substitution `re.sub(r"[\s\-]", "", ...)`.
Only ASCII data flows through these scripts, so `Char.toLower` is a
faithful model of `str.lower`. -/

/-- Model of Python `str.lower()` (ASCII). -/
def pyToLower (s : String) : String := ⟨s.data.map Char.toLower⟩

/-- The six ASCII whitespace characters matched by Python `\s` and
stripped by `str.strip()`. -/
def isPySpace (c : Char) : Bool :=
  c = ' ' ∨ c = '\t' ∨ c = '\n' ∨ c = '\r' ∨ c = '\x0b' ∨ c = '\x0c'

/-- Model of Python `str.strip()`: drop whitespace at both ends. -/
def pyStrip (s : String) : String :=
  ⟨((s.data.dropWhile isPySpace).reverse.dropWhile isPySpace).reverse⟩

/-! ### auto-classify-transcripts-gpt4o.py -/

/-- `normalize_text` (auto-classify-transcripts-gpt4o.py, lines 53-57):
lowercase, then delete every whitespace character and hyphen
(`re.sub(r"[\s\-]", "", text.lower())`). -/
def normalize_text (text : String) : String :=
  ⟨(text.data.map Char.toLower).filter (fun c => ¬ (isPySpace c ∨ c = '-'))⟩

/-- `compare_match` (auto-classify-transcripts-gpt4o.py, lines 59-78):
three-way verdict on the normalized ground truth and model output.  The
two final branches of the source both return "miss" and are kept as in
the source. -/
def compare_match (ground_truth gpt_output : String) : String :=
  let norm_gt := normalize_text ground_truth
  let norm_out := normalize_text gpt_output
  if norm_gt = norm_out then "hit"
  else if (norm_gt = "neutral" ∨ norm_out = "neutral") ∧
          ((norm_gt = "empathetic" ∨ norm_out = "empathetic") ∨
           (norm_gt = "antiempathetic" ∨ norm_out = "antiempathetic")) then "near-miss"
  else if (norm_gt = "empathetic" ∧ norm_out = "antiempathetic") ∨
          (norm_gt = "antiempathetic" ∧ norm_out = "empathetic") then "miss"
  else "miss"

/-! ### auto-classify-wavs.py and auto-classify-wavs-gemini.py verdicts -/

/-- `compare_classification` (auto-classify-wavs.py, lines 63-73):
"hit" on equal lowercased labels, otherwise "near-miss" whenever BOTH
lowercased labels lie in the valid vocabulary, otherwise "miss". -/
def wavs_compare_classification (pred actual : String) : String :=
  let pred_lower := pyToLower pred
  let actual_lower := pyToLower actual
  if pred_lower = actual_lower then "hit"
  else if pred_lower ∈ ["empathetic", "neutral", "anti-empathetic"] ∧
          actual_lower ∈ ["empathetic", "neutral", "anti-empathetic"] then "near-miss"
  else "miss"

/-- `compare_classification` (auto-classify-wavs-gemini.py, lines 68-83):
"hit" on equal lowercased-and-stripped labels, "near-miss" when exactly
one side is "neutral" and the other is "empathetic" or
"anti-empathetic", otherwise "miss". -/
def gemini_compare_classification (pred actual : String) : String :=
  let pred_lower := pyStrip (pyToLower pred)
  let actual_lower := pyStrip (pyToLower actual)
  if pred_lower = actual_lower then "hit"
  else if (pred_lower = "neutral" ∧ actual_lower ∈ ["empathetic", "anti-empathetic"]) ∨
          (actual_lower = "neutral" ∧ pred_lower ∈ ["empathetic", "anti-empathetic"]) then "near-miss"
  else "miss"

/-! ### analyze.py: the evaluator

Ratings reach `numeric_to_category` after `pd.to_numeric` with coercion,
so a rating is either a number or missing; `Option ℚ` models that (ℚ is
exact on the thresholds 2, 3, 4 the code compares against).  A missing
rating takes the fall-through path of the source (every comparison on
NaN is false, and `float` of a non-number raises into the `except`
branch); both produce a missing result, modelled as `none`. -/

/-- `truth_mapping` (analyze.py, line 28): the dict
`\x7b"anti": 1, "neutral": 3, "empathetic": 5\x7d` as a lookup. -/
def truth_mapping (s : String) : Option ℚ :=
  if s = "anti" then some 1
  else if s = "neutral" then some 3
  else if s = "empathetic" then some 5
  else none

/-- analyze.py line 31: `df["Category"].astype(str).str.lower().str.strip()`. -/
def category_clean (s : String) : String := pyStrip (pyToLower s)

/-- analyze.py line 32: `df["Category_clean"].map(truth_mapping)`;
an unrecognized category yields a missing value. -/
def truth_numeric (s : String) : Option ℚ := truth_mapping (category_clean s)

/-- `numeric_to_category` (analyze.py, lines 53-63).  Ratings strictly
between 2 and 3 or between 3 and 4 take the fall-through path of the
source and yield a missing value, as does a missing rating. -/
def numeric_to_category : Option ℚ → Option String
  | none => none
  | some rating =>
    if rating ≤ 2 then some "anti"
    else if rating = 3 then some "neutral"
    else if 4 ≤ rating then some "empathetic"
    else none

/-- analyze.py line 76: `df[method].fillna("Unknown")` — the predicted
label actually fed to the classification report and confusion matrix. -/
def predicted_label (r : Option ℚ) : String :=
  (numeric_to_category r).getD "Unknown"

/-- A row of the merged results table as analyze.py sees it for one
modality: the raw `Category` text and the rating after
`pd.to_numeric` coercion. -/
structure AnalyzeRow where
  Category : String
  rating : Option ℚ

/-- The (truth, prediction) pairs handed to the scoring calls
(analyze.py lines 76-82): cleaned truth and filled prediction. -/
def evalPairs (rows : List AnalyzeRow) : List (String × String) :=
  rows.map (fun r => (category_clean r.Category, predicted_label r.rating))

/-- One cell of the sklearn confusion matrix: the number of samples
with truth `t` and prediction `p`. -/
def cellCount (t p : String) (y : List (String × String)) : ℕ :=
  (y.filter (fun q => q.1 = t ∧ q.2 = p)).length

/-- sklearn `confusion_matrix(truth, preds, labels)` semantics: entry
(i, j) counts samples with truth `labels[i]` and prediction
`labels[j]`; samples whose truth or prediction is outside `labels`
appear in no cell. -/
def confusion_matrix (labels : List String) (y : List (String × String)) : List (List ℕ) :=
  labels.map (fun t => labels.map (fun p => cellCount t p y))

/-- Grand total of the confusion matrix. -/
def matrixTotal (labels : List String) (y : List (String × String)) : ℕ :=
  ((confusion_matrix labels y).map List.sum).sum

/-- The ordered label set of analyze.py lines 80-82. -/
def cmLabels : List String := ["empathetic", "neutral", "anti"]

/-! ### The resumable batch runner of auto-classify.py and
auto-classify-transcripts-gpt4o.py

Both scripts have the same loop: scan the output artifact into a set of
processed keys, then for each segment row skip it if its key is in the
set, otherwise call the worker (the rating / classification calls),
append the result row to the artifact at once, and add the key to the
set.  The artifact is the list of data rows (the CSV header is not a
data row and the DictReader scan never yields it); a row is its key
together with its remaining columns, whose content the claims never
inspect, so they stay a type parameter, and the worker is the pluggable
per-segment work. -/

/-- Composite segment identity (videoID, start, end).  The end field is
called `stop` because `end` is a reserved word in Lean. -/
structure SegKey where
  videoId : String
  start : String
  stop : String
deriving DecidableEq

/-- The ProcessedKeySet reconstructed by scanning an artifact: the keys
of its rows (auto-classify.py lines 29-36). -/
def processedKeys {α : Type} (art : List (SegKey × α)) : List SegKey :=
  art.map Prod.fst

/-- The per-segment loop of auto-classify.py lines 63-114 (and
auto-classify-transcripts-gpt4o.py lines 107-146): skip keys in the
set, otherwise append the worker row immediately and add the key. -/
def runBatchAux {σ α : Type} (worker : SegKey × σ → α) :
    List (SegKey × σ) → List (SegKey × α) → List SegKey → List (SegKey × α)
  | [], art, _ => art
  | s :: rest, art, proc =>
    if s.1 ∈ proc then runBatchAux worker rest art proc
    else runBatchAux worker rest (art ++ [(s.1, worker s)]) (s.1 :: proc)

/-- One full run of the batch runner: rebuild the ProcessedKeySet from
the artifact, then process the segment stream. -/
def runBatch {σ α : Type} (worker : SegKey × σ → α) (segs : List (SegKey × σ))
    (art : List (SegKey × α)) : List (SegKey × α) :=
  runBatchAux worker segs art (processedKeys art)

/-! ### Decimal formatting and parsing primitives

`digitChar`, `natChars` and `pad2` model the decimal rendering done by
the Python f-strings `f"{a}:{b:02d}"`; `natVal` and `pythonInt` model
`int(...)` applied to a decimal field (sign handling included; the
rarely used leniencies of Python `int` — inner underscores and
surrounding whitespace — are not modelled). -/

/-- The decimal digit characters. -/
def digitChar (d : ℕ) : Char :=
  match d with
  | 0 => '0'
  | 1 => '1'
  | 2 => '2'
  | 3 => '3'
  | 4 => '4'
  | 5 => '5'
  | 6 => '6'
  | 7 => '7'
  | 8 => '8'
  | _ => '9'

/-- Decimal digits of `n`, most significant first (empty for 0); the
fuel argument makes the recursion structural. -/
def natCharsGo : ℕ → ℕ → List Char
  | 0, _ => []
  | fuel + 1, n =>
    if n = 0 then [] else natCharsGo fuel (n / 10) ++ [digitChar (n % 10)]

/-- Decimal rendering of a natural number, as Python `str` writes it. -/
def natChars (n : ℕ) : List Char :=
  if n = 0 then ['0'] else natCharsGo n n

/-- Numeric value of a digit character. -/
def charVal (c : Char) : ℕ := c.toNat - 48

/-- Value of a decimal digit string. -/
def natVal (cs : List Char) : ℕ :=
  cs.foldl (fun a c => 10 * a + charVal c) 0

/-- Python `%02d`: zero-pad the decimal rendering to width two. -/
def pad2 (n : ℕ) : List Char :=
  if n < 10 then '0' :: natChars n else natChars n

/-- The f-string `f"{a}:{b:02d}"` producing an `M:S` (or `S:cs`)
timestamp, used by `extract_video_info` in both wav scripts and by the
Time Codec round-trip law of the spec. -/
def fmtTime (a b : ℕ) : String := ⟨natChars a ++ ':' :: pad2 b⟩

/-- Model of Python `int(text)` on a field: optional single sign
followed by a nonempty run of decimal digits. -/
def pythonInt (cs : List Char) : Option ℤ :=
  match cs with
  | [] => none
  | c :: rest =>
    if c = '-' then
      if rest ≠ [] ∧ rest.all Char.isDigit then some (-(natVal rest : ℤ)) else none
    else if c = '+' then
      if rest ≠ [] ∧ rest.all Char.isDigit then some ((natVal rest : ℤ)) else none
    else if (c :: rest).all Char.isDigit then some ((natVal (c :: rest) : ℤ)) else none

/-- Python `str.split(sep)` on a single-character separator: keeps
empty fields, never returns an empty list. -/
def pySplit (sep : Char) : List Char → List (List Char)
  | [] => [[]]
  | c :: rest =>
    if c = sep then [] :: pySplit sep rest
    else
      match pySplit sep rest with
      | [] => [[c]]
      | f :: r => (c :: f) :: r

/-- The comprehension `[int(p) for p in parts]` with exception
propagation: all fields parse or the whole list fails. -/
def intList : List (List Char) → Option (List ℤ)
  | [] => some []
  | p :: rest =>
    match pythonInt p, intList rest with
    | some v, some vs => some (v :: vs)
    | _, _ => none

/-- `convert_time_to_ms` (extractor.py, lines 86-102): split on ":",
parse every field as an integer, then interpret 2 fields as `M:S` (with
hours 0) and 3 fields as `H:M:S`; any other shape, or a non-integer
field, raises (modelled as `none`). -/
def convert_time_to_ms (timestr : String) : Option ℤ :=
  match intList (pySplit ':' timestr.data) with
  | none => none
  | some [m, s] => some ((0 * 3600 + m * 60 + s) * 1000)
  | some [h, m, s] => some ((h * 3600 + m * 60 + s) * 1000)
  | some _ => none

/-- The claim's notion of a parseable timestamp: the text splits into 2
or 3 colon-separated integer fields. -/
def timeFieldsOK (t : String) : Prop :=
  ((pySplit ':' t.data).length = 2 ∨ (pySplit ':' t.data).length = 3) ∧
    ∀ f ∈ pySplit ':' t.data, (pythonInt f).isSome

instance (t : String) : Decidable (timeFieldsOK t) := by
  unfold timeFieldsOK
  infer_instance

/-! ### auto-classify-wavs.py: filename keys and the wav runner

`extract_video_info` matches the filename against the regex
`([-a-zA-Z0-9_]+)_(\d+)-(\d+)_(\d+)-(\d+)\.wav` (anchored at the start
only, as `re.match` is) and rebuilds `(videoID, start, end)` with the
f-strings of lines 58-59.  The model below is an explicit backtracking
matcher: the digit groups are deterministic (a maximal digit run
followed by the required literal), and the leading word group is
greedy, so the longest prefix that lets the tail match wins. -/

/-- The regex character class `[-a-zA-Z0-9_]`. -/
def isWordChar (c : Char) : Bool :=
  c = '-' ∨ c = '_' ∨ c.isAlpha ∨ c.isDigit

/-- Match `(\d+)-(\d+)_(\d+)-(\d+)\.wav` (with arbitrary trailing text,
as `re.match` allows) and return the four digit groups. -/
def matchTail (cs : List Char) : Option (List Char × List Char × List Char × List Char) :=
  let d1 := cs.takeWhile Char.isDigit
  match d1, cs.dropWhile Char.isDigit with
  | [], _ => none
  | _, '-' :: r2 =>
    let d2 := r2.takeWhile Char.isDigit
    match d2, r2.dropWhile Char.isDigit with
    | [], _ => none
    | _, '_' :: r4 =>
      let d3 := r4.takeWhile Char.isDigit
      match d3, r4.dropWhile Char.isDigit with
      | [], _ => none
      | _, '-' :: r6 =>
        let d4 := r6.takeWhile Char.isDigit
        match d4, r6.dropWhile Char.isDigit with
        | [], _ => none
        | _, '.' :: 'w' :: 'a' :: 'v' :: _ => some (d1, d2, d3, d4)
        | _, _ => none
      | _, _ => none
    | _, _ => none
  | _, _ => none

/-- Try the word group at length `i`: it must be nonempty word
characters followed by a literal underscore and a matching tail. -/
def stemAt (cs : List Char) (i : ℕ) :
    Option (List Char × List Char × List Char × List Char × List Char) :=
  let g1 := cs.take i
  if g1 ≠ [] ∧ g1.all isWordChar then
    match cs.drop i with
    | '_' :: rest => (matchTail rest).map (fun t => (g1, t.1, t.2.1, t.2.2.1, t.2.2.2))
    | _ => none
  else none

/-- Greedy choice of the word group: longest feasible length first. -/
def tryStem (cs : List Char) : ℕ → Option (List Char × List Char × List Char × List Char × List Char)
  | 0 => none
  | i + 1 =>
    match stemAt cs (i + 1) with
    | some r => some r
    | none => tryStem cs i

/-- `extract_video_info` (auto-classify-wavs.py, lines 50-61; identical
in auto-classify-wavs-gemini.py): on a regex match, rebuild the key
with `f"{int(g2)}:{int(g3):02d}"` and `f"{int(g4)}:{int(g5):02d}"`;
otherwise return the filename with empty time fields. -/
def extract_video_info (filename : String) : String × String × String :=
  match tryStem filename.data filename.data.length with
  | some (g1, d1, d2, d3, d4) =>
    (⟨g1⟩, fmtTime (natVal d1) (natVal d2), fmtTime (natVal d3) (natVal d4))
  | none => (filename, "", "")

/-- Pack the extracted triple as a SegKey. -/
def mkSegKey (t : String × String × String) : SegKey :=
  ⟨t.1, t.2.1, t.2.2⟩

/-- An output row of output-wavs.csv: key, ground-truth category, model
classification and match verdict. -/
structure WavRow where
  key : SegKey
  category : String
  classification : String
  verdict : String
deriving DecidableEq

/-- The per-file loop of auto-classify-wavs.py lines 155-178: skip keys
already in the startup set; call the classifier, which either raises
(modelled as `Except.error`, caught by the `except` of line 177 — no
row is written) or returns a label (a row is appended at once).  The
set of processed keys is NOT updated during the run. -/
def wavsRunAux (classify : String → Except String String) (gt : SegKey → String)
    (already : List SegKey) : List String → List WavRow → List WavRow
  | [], art => art
  | f :: rest, art =>
    let k := mkSegKey (extract_video_info f)
    if k ∈ already then wavsRunAux classify gt already rest art
    else
      match classify f with
      | Except.error _ => wavsRunAux classify gt already rest art
      | Except.ok cls =>
        wavsRunAux classify gt already rest
          (art ++ [⟨k, gt k, cls, wavs_compare_classification cls (gt k)⟩])

/-- One run of auto-classify-wavs.py `main`: build the
already-processed set by scanning the artifact, then process the
file listing. -/
def wavsRun (classify : String → Except String String) (gt : SegKey → String)
    (files : List String) (art : List WavRow) : List WavRow :=
  wavsRunAux classify gt (art.map WavRow.key) files art

/-! ### The rater-call boundaries

The external API call either returns the response content or raises;
`Except String String` models that outcome (error = exception
message).  Each function below is the code wrapped around the call. -/

/-- `get_gpt_rating` (auto-classify.py, lines 116-127): stripped
content on success, the sentinel "Error" on any exception. -/
def get_gpt_rating (resp : Except String String) : String :=
  match resp with
  | Except.ok content => pyStrip content
  | Except.error _ => "Error"

/-- `call_llm` (auto-classify-transcripts-gpt4o.py, lines 27-51):
stripped content on success, the sentinel "Error: " followed by the
exception text on failure. -/
def call_llm (resp : Except String String) : String :=
  match resp with
  | Except.ok content => pyStrip content
  | Except.error e => "Error: " ++ e

/-- Does `needle` match at the front of the second list? -/
def matchesAt : List Char → List Char → Bool
  | [], _ => true
  | _ :: _, [] => false
  | a :: as, b :: bs => a = b && matchesAt as bs

/-- Python `needle in hay` substring containment. -/
def containsChars (needle : List Char) : List Char → Bool
  | [] => matchesAt needle []
  | c :: rest => matchesAt needle (c :: rest) || containsChars needle rest

/-- The response post-processing of `classify_audio`
(auto-classify-wavs.py, lines 99-134): the transcript found in the
response (already stripped and lowercased by line 110/115), or no
transcript at all; an empty or missing transcript falls back to
"NO_RESPONSE", a transcript outside the valid vocabulary is searched
for a contained label (Python iterates a set here; the model fixes the
listed order), and "NO_RESPONSE" stands in when none is found. -/
def classify_audio_post (transcript : Option String) : String :=
  let c0 := match transcript with
    | some t => pyToLower (pyStrip t)
    | none => ""
  let classification := if c0 = "" then "NO_RESPONSE" else c0
  if classification ∈ ["empathetic", "neutral", "anti-empathetic"] then classification
  else
    match ["empathetic", "neutral", "anti-empathetic"].find?
        (fun label => containsChars label.data classification.data) with
    | some label => label
    | none => "NO_RESPONSE"

/-! ### extractor.py: the feature-extraction run

The per-row loop of `main` (lines 130-172): if the full audio for the
row's video is not on disk and cannot be downloaded, `continue` skips
the row; otherwise the slice-and-compute block runs and either yields a
feature record (row written) or raises (row skipped by the `except` of
line 171).  Audio availability is a function of the video id (the
downloads cache), and the slice/feature computation is a fallible
function of the row; both are parameters since they touch disk and
librosa.  The output file is opened in "w" mode with an unconditional
`writeheader` (lines 123-128), so the produced artifact never depends
on a previous run's artifact; the `_prev` argument of
`extractorArtifact` records exactly that. -/

/-- A row of segments.csv as extractor.py reads it. -/
structure ExtractorInRow where
  videoId : String
  start : String
  stop : String
deriving DecidableEq

/-- The row loop of extractor.py lines 130-172. -/
def extractorProcess {α : Type} (avail : String → Bool)
    (feats : ExtractorInRow → Option α) :
    List ExtractorInRow → List (ExtractorInRow × α)
  | [] => []
  | r :: rest =>
    if avail r.videoId then
      match feats r with
      | some f => (r, f) :: extractorProcess avail feats rest
      | none => extractorProcess avail feats rest
    else extractorProcess avail feats rest

/-- A line of audio_features.csv: the header or a data row. -/
inductive ExtractorLine (α : Type) where
  | header : ExtractorLine α
  | row : ExtractorInRow → α → ExtractorLine α
deriving DecidableEq

/-- The artifact after one run of extractor.py `main`: open in
write-truncate mode (the previous content `_prev` is discarded), write
the header, then the rows the loop produces. -/
def extractorArtifact {α : Type} (_prev : List (ExtractorLine α))
    (avail : String → Bool) (feats : ExtractorInRow → Option α)
    (rows : List ExtractorInRow) : List (ExtractorLine α) :=
  ExtractorLine.header ::
    (extractorProcess avail feats rows).map (fun p => ExtractorLine.row p.1 p.2)

/-! ## Theorems -/

/-! ### Helper lemmas on sums of mapped lists -/

theorem sum_map_add {α : Type} (f g : α → ℕ) (l : List α) :
    (l.map (fun x => f x + g x)).sum = (l.map f).sum + (l.map g).sum := by
  induction l with
  | nil => simp
  | cons a as ih => simp only [List.map_cons, List.sum_cons, ih]; omega

theorem sum_map_single {α : Type} [DecidableEq α] (x : α) (c : ℕ) :
    ∀ L : List α, L.Nodup →
      (L.map (fun t => if x = t then c else 0)).sum = if x ∈ L then c else 0 := by
  intro L
  induction L with
  | nil => intro _; simp
  | cons a as ih =>
    intro h
    rcases List.nodup_cons.mp h with ⟨ha, has⟩
    by_cases hx : x = a
    · subst hx
      simp [List.sum_cons, ih has, ha]
    · simp [List.sum_cons, ih has, hx, List.mem_cons]

theorem cellCount_cons (t p : String) (q : String × String) (ys : List (String × String)) :
    cellCount t p (q :: ys) =
      (if q.1 = t ∧ q.2 = p then 1 else 0) + cellCount t p ys := by
  by_cases h : q.1 = t ∧ q.2 = p <;> (simp [cellCount, List.filter_cons, h]; try omega)

theorem matrixTotal_cons (L : List String) (hL : L.Nodup) (q : String × String)
    (ys : List (String × String)) :
    matrixTotal L (q :: ys) =
      (if q.1 ∈ L ∧ q.2 ∈ L then 1 else 0) + matrixTotal L ys := by
  have hinner : ∀ t : String,
      (L.map (fun p => cellCount t p (q :: ys))).sum
        = (if q.1 = t ∧ q.2 ∈ L then 1 else 0)
          + (L.map (fun p => cellCount t p ys)).sum := by
    intro t
    simp only [cellCount_cons]
    rw [sum_map_add (fun p => if q.1 = t ∧ q.2 = p then 1 else 0)
        (fun p => cellCount t p ys) L]
    by_cases ht : q.1 = t
    · simp only [ht, true_and]
      rw [sum_map_single q.2 1 L hL]
    · simp [ht]
  simp only [matrixTotal, confusion_matrix, List.map_map, Function.comp_def]
  simp only [hinner]
  rw [sum_map_add (fun t => if q.1 = t ∧ q.2 ∈ L then 1 else 0)
      (fun t => (L.map (fun p => cellCount t p ys)).sum) L]
  by_cases hq2 : q.2 ∈ L
  · simp only [hq2, and_true]
    rw [sum_map_single q.1 1 L hL]
  · simp [hq2]

theorem matrixTotal_eq_count (L : List String) (hL : L.Nodup) :
    ∀ ys : List (String × String),
      matrixTotal L ys = (ys.filter (fun q => q.1 ∈ L ∧ q.2 ∈ L)).length := by
  intro ys
  induction ys with
  | nil => simp [matrixTotal, confusion_matrix, cellCount, Function.comp_def]
  | cons q ys ih =>
    rw [matrixTotal_cons L hL q ys, ih]
    by_cases h : q.1 ∈ L ∧ q.2 ∈ L <;> (simp [List.filter_cons, h]; try omega)

/-! ### Claim C1 -/

/-- C1: the three-way match verdict.  The claimed scheme (hit iff
normalized labels equal; near-miss iff exactly one side is neutral and
the other is empathetic or anti; miss otherwise, in particular for the
opposite-polarity pair) is what `compare_match` of
auto-classify-transcripts-gpt4o.py and `compare_classification` of
auto-classify-wavs-gemini.py compute, but `compare_classification` of
auto-classify-wavs.py answers "near-miss" on the opposite-polarity pair
(empathetic vs anti-empathetic), because its near-miss branch only asks
that both labels lie in the valid vocabulary.  This theorem evaluates
all three variants at that failing input. -/
theorem c1_wavs_opposite_polarity_divergence :
    wavs_compare_classification "empathetic" "anti-empathetic" = "near-miss" ∧
    compare_match "empathetic" "anti-empathetic" = "miss" ∧
    gemini_compare_classification "empathetic" "anti-empathetic" = "miss" := by
  refine ⟨by decide, by decide, by decide⟩

/-! ### Claim C3 -/

/-- C3: the numeric-to-categorical mapping of analyze.py sends every
rating at most 2 to "anti", exactly 3 to "neutral", at least 4 to
"empathetic", and a missing or non-numeric rating produces the explicit
"Unknown" placeholder (via the `fillna` of line 76) rather than being
dropped. -/
theorem c3_numeric_to_category_spec :
    (∀ r : ℚ, r ≤ 2 → numeric_to_category (some r) = some "anti") ∧
    (∀ r : ℚ, r = 3 → numeric_to_category (some r) = some "neutral") ∧
    (∀ r : ℚ, 4 ≤ r → numeric_to_category (some r) = some "empathetic") ∧
    numeric_to_category none = none ∧ predicted_label none = "Unknown" := by
  refine ⟨?_, ?_, ?_, rfl, rfl⟩
  · intro r h
    simp [numeric_to_category, h]
  · intro r h
    subst h
    norm_num [numeric_to_category]
  · intro r h
    have h2 : ¬ (r ≤ 2) := by linarith
    have h3 : r ≠ 3 := by intro hr; rw [hr] at h; norm_num at h
    simp [numeric_to_category, h2, h3, h]

/-- Witness for C3 at the concrete ratings 1, 3 and 5. -/
theorem c3_numeric_to_category_spec_witness :
    numeric_to_category (some 1) = some "anti" ∧
    numeric_to_category (some 3) = some "neutral" ∧
    numeric_to_category (some 5) = some "empathetic" ∧
    predicted_label none = "Unknown" :=
  ⟨c3_numeric_to_category_spec.1 1 (by norm_num),
   c3_numeric_to_category_spec.2.1 3 rfl,
   c3_numeric_to_category_spec.2.2.1 5 (by norm_num),
   c3_numeric_to_category_spec.2.2.2.2⟩

/-! ### Claim C4 -/

/-- C4 counterexample: one evaluated segment with ground truth
"empathetic" and a missing rating.  Its prediction is the "Unknown"
placeholder, which is NOT among the matrix labels, so sklearn drops the
sample from the matrix: the matrix total is 0, not the segment count
1.  This refutes the claim that the row/column totals always equal the
number of evaluated segments. -/
theorem c4_matrix_total_counterexample :
    matrixTotal cmLabels (evalPairs [⟨"empathetic", none⟩]) = 0 ∧
    (evalPairs [⟨"empathetic", none⟩]).length = 1 := by
  refine ⟨by decide, by decide⟩

/-- C4 amended: the confusion-matrix grand total equals the number of
evaluated segments whose cleaned truth AND filled prediction both lie
in the ordered label set; segments carrying the "Unknown" placeholder
(or an unrecognized truth label) are excluded from the matrix, not
bucketed. -/
theorem c4_matrix_total_in_vocab (rows : List AnalyzeRow) :
    matrixTotal cmLabels (evalPairs rows) =
      ((evalPairs rows).filter (fun q => q.1 ∈ cmLabels ∧ q.2 ∈ cmLabels)).length :=
  matrixTotal_eq_count cmLabels (by decide) (evalPairs rows)

/-! ### Claim C9 -/

/-- C9 counterexample: analyze.py does NOT normalize the
"anti-empathetic" spelling to "anti" — `truth_mapping` has no such key,
so a ground-truth value "anti-empathetic" gets no numeric anchor
(whereas "anti" gets 1), and `Category_clean` keeps the unrecognized
text instead of replacing it with an "unknown" sentinel. -/
theorem c9_anti_empathetic_unrecognized :
    truth_numeric "anti-empathetic" = none ∧
    truth_numeric "anti" = some 1 ∧
    category_clean "anti-empathetic" = "anti-empathetic" := by
  refine ⟨by decide, by decide, by decide⟩

/-- C9 amended: raw category values are lowercased and
whitespace-trimmed before being matched against the vocabulary; the
recognized labels get the anchors anti = 1, neutral = 3,
empathetic = 5; any other cleaned text (including "anti-empathetic")
gets a missing numeric anchor, with no error raised and no sentinel
substituted for the text itself. -/
theorem c9_truth_normalization :
    (∀ s : String, category_clean s = "anti" → truth_numeric s = some 1) ∧
    (∀ s : String, category_clean s = "neutral" → truth_numeric s = some 3) ∧
    (∀ s : String, category_clean s = "empathetic" → truth_numeric s = some 5) ∧
    (∀ s : String, category_clean s ∉ ["anti", "neutral", "empathetic"] →
      truth_numeric s = none) ∧
    category_clean "  Anti " = "anti" := by
  refine ⟨?_, ?_, ?_, ?_, by decide⟩
  · intro s h
    simp [truth_numeric, truth_mapping, h]
  · intro s h
    simp [truth_numeric, truth_mapping, h]
  · intro s h
    simp [truth_numeric, truth_mapping, h]
  · intro s h
    simp only [List.mem_cons, List.not_mem_nil, or_false] at h
    push_neg at h
    simp [truth_numeric, truth_mapping, h.1, h.2.1, h.2.2]

/-- Witness for C9 amended at concrete raw labels. -/
theorem c9_truth_normalization_witness :
    truth_numeric "NEUTRAL " = some 3 ∧ truth_numeric "garbage" = none :=
  ⟨c9_truth_normalization.2.1 "NEUTRAL " (by decide),
   c9_truth_normalization.2.2.2.1 "garbage" (by decide)⟩

theorem runBatchAux_append {σ α : Type} (worker : SegKey × σ → α) :
    ∀ (segs : List (SegKey × σ)) (art : List (SegKey × α)) (proc : List SegKey),
      ∃ ext, runBatchAux worker segs art proc = art ++ ext := by
  intro segs
  induction segs with
  | nil => intro art proc; exact ⟨[], by simp [runBatchAux]⟩
  | cons s rest ih =>
    intro art proc
    by_cases h : s.1 ∈ proc
    · rcases ih art proc with ⟨ext, hext⟩
      exact ⟨ext, by simp [runBatchAux, h, hext]⟩
    · rcases ih (art ++ [(s.1, worker s)]) (s.1 :: proc) with ⟨ext, hext⟩
      refine ⟨(s.1, worker s) :: ext, ?_⟩
      simp [runBatchAux, h, hext]

theorem processedKeys_mono {σ α : Type} (worker : SegKey × σ → α)
    (segs : List (SegKey × σ)) (art : List (SegKey × α)) (proc : List SegKey)
    (k : SegKey) (hk : k ∈ processedKeys art) :
    k ∈ processedKeys (runBatchAux worker segs art proc) := by
  rcases runBatchAux_append worker segs art proc with ⟨ext, hext⟩
  rw [hext]
  simp only [processedKeys, List.map_append, List.mem_append]
  exact Or.inl hk

theorem runBatchAux_complete {σ α : Type} (worker : SegKey × σ → α) :
    ∀ (segs : List (SegKey × σ)) (art : List (SegKey × α)) (proc : List SegKey),
      (∀ k, k ∈ proc → k ∈ processedKeys art) →
      ∀ s ∈ segs, s.1 ∈ processedKeys (runBatchAux worker segs art proc) := by
  intro segs
  induction segs with
  | nil => intro art proc _ s hs; cases hs
  | cons t rest ih =>
    intro art proc hproc s hs
    by_cases h : t.1 ∈ proc
    · simp only [runBatchAux, h, if_true]
      rcases List.mem_cons.mp hs with hst | hsrest
      · subst hst
        exact processedKeys_mono worker rest art proc s.1 (hproc s.1 h)
      · exact ih art proc hproc s hsrest
    · simp only [runBatchAux, h, if_false]
      have hproc2 : ∀ k, k ∈ t.1 :: proc → k ∈ processedKeys (art ++ [(t.1, worker t)]) := by
        intro k hk
        simp only [processedKeys, List.map_append, List.mem_append]
        rcases List.mem_cons.mp hk with hk1 | hk2
        · subst hk1; right; simp
        · exact Or.inl (hproc k hk2)
      rcases List.mem_cons.mp hs with hst | hsrest
      · subst hst
        refine processedKeys_mono worker rest _ _ s.1 ?_
        simp [processedKeys]
      · exact ih (art ++ [(t.1, worker t)]) (t.1 :: proc) hproc2 s hsrest

theorem runBatchAux_skip_all {σ α : Type} (worker : SegKey × σ → α) :
    ∀ (segs : List (SegKey × σ)) (art : List (SegKey × α)) (proc : List SegKey),
      (∀ s ∈ segs, s.1 ∈ proc) → runBatchAux worker segs art proc = art := by
  intro segs
  induction segs with
  | nil => intro art proc _; rfl
  | cons t rest ih =>
    intro art proc h
    have ht : t.1 ∈ proc := h t (List.mem_cons_self t rest)
    simp only [runBatchAux, ht, if_true]
    exact ih art proc (fun s hs => h s (List.mem_cons_of_mem t hs))

/-! ### Claim C2 -/

/-- C2: the batch runner is idempotent.  A second run over the same
segment stream, against the artifact the first run produced, changes
nothing (even literally, not only as a set of rows), whatever the
worker answers on either run: every key is in the ProcessedKeySet
rebuilt from the artifact, so every segment is skipped. -/
theorem c2_batch_runner_idempotent {σ α : Type}
    (worker worker2 : SegKey × σ → α) (segs : List (SegKey × σ))
    (art : List (SegKey × α)) :
    runBatch worker2 segs (runBatch worker segs art) = runBatch worker segs art := by
  apply runBatchAux_skip_all
  intro s hs
  exact runBatchAux_complete worker segs art (processedKeys art) (fun k hk => hk) s hs

/-! ### Claim C5 -/

theorem runBatchAux_nodup {σ α : Type} (worker : SegKey × σ → α) :
    ∀ (segs : List (SegKey × σ)) (art : List (SegKey × α)) (proc : List SegKey),
      (∀ k, k ∈ processedKeys art → k ∈ proc) →
      (processedKeys art).Nodup →
      (processedKeys (runBatchAux worker segs art proc)).Nodup := by
  intro segs
  induction segs with
  | nil => intro art proc _ hnd; exact hnd
  | cons t rest ih =>
    intro art proc hsub hnd
    by_cases h : t.1 ∈ proc
    · simp only [runBatchAux, h, if_true]
      exact ih art proc hsub hnd
    · simp only [runBatchAux, h, if_false]
      have hnotin : t.1 ∉ processedKeys art := fun hin => h (hsub t.1 hin)
      have hnd2 : (processedKeys (art ++ [(t.1, worker t)])).Nodup := by
        simp only [processedKeys, List.map_append, List.map_cons, List.map_nil]
        rw [List.nodup_append]
        refine ⟨hnd, List.nodup_singleton t.1, ?_⟩
        intro a ha hb
        simp only [List.mem_singleton] at hb
        subst hb
        exact hnotin ha
      have hsub2 : ∀ k, k ∈ processedKeys (art ++ [(t.1, worker t)]) → k ∈ t.1 :: proc := by
        intro k hk
        simp only [processedKeys, List.map_append, List.map_cons, List.map_nil,
          List.mem_append, List.mem_singleton] at hk
        rcases hk with hk1 | hk2
        · exact List.mem_cons_of_mem t.1 (hsub k hk1)
        · simp [hk2]
      exact ih (art ++ [(t.1, worker t)]) (t.1 :: proc) hsub2 hnd2

/-- C5 amended (positive half): the runner of auto-classify.py and
auto-classify-transcripts-gpt4o.py — which checks the ProcessedKeySet
before invoking the worker, appends each row immediately, and adds the
key to the set right after appending — keeps the artifact keys
duplicate-free, within a run and across runs. -/
theorem c5_runbatch_keys_nodup {σ α : Type} (worker : SegKey × σ → α)
    (segs : List (SegKey × σ)) (art : List (SegKey × α))
    (hart : (processedKeys art).Nodup) :
    (processedKeys (runBatch worker segs art)).Nodup :=
  runBatchAux_nodup worker segs art (processedKeys art) (fun _ hk => hk) hart

/-! ### Lemmas about the decimal primitives -/

theorem charVal_digitChar (d : ℕ) (h : d < 10) : charVal (digitChar d) = d := by
  interval_cases d <;> rfl

theorem digitChar_isDigit (d : ℕ) (h : d < 10) : (digitChar d).isDigit = true := by
  interval_cases d <;> decide

theorem digitChar_ne_colon (d : ℕ) (h : d < 10) : digitChar d ≠ ':' := by
  interval_cases d <;> decide

theorem digitChar_ne_dash (d : ℕ) (h : d < 10) : digitChar d ≠ '-' := by
  interval_cases d <;> decide

theorem digitChar_ne_plus (d : ℕ) (h : d < 10) : digitChar d ≠ '+' := by
  interval_cases d <;> decide

theorem natVal_foldl (cs : List Char) :
    ∀ a : ℕ, cs.foldl (fun a c => 10 * a + charVal c) a = a * 10 ^ cs.length + natVal cs := by
  induction cs with
  | nil => intro a; simp [natVal]
  | cons c cs ih =>
    intro a
    have h1 : (c :: cs).foldl (fun a c => 10 * a + charVal c) a
        = cs.foldl (fun a c => 10 * a + charVal c) (10 * a + charVal c) := rfl
    have h2 : natVal (c :: cs) = charVal c * 10 ^ cs.length + natVal cs := by
      have := ih (charVal c)
      simpa [natVal] using this
    rw [h1, ih (10 * a + charVal c), h2]
    simp only [List.length_cons, pow_succ]
    ring

theorem natVal_append_digit (cs : List Char) (c : Char) :
    natVal (cs ++ [c]) = 10 * natVal cs + charVal c := by
  simp only [natVal, List.foldl_append, List.foldl_cons, List.foldl_nil]

theorem natCharsGo_mem (fuel : ℕ) :
    ∀ (n : ℕ) (c : Char), c ∈ natCharsGo fuel n → ∃ d, d < 10 ∧ c = digitChar d := by
  induction fuel with
  | zero => intro n c hc; cases hc
  | succ fuel ih =>
    intro n c hc
    by_cases hn : n = 0
    · simp [natCharsGo, hn] at hc
    · simp only [natCharsGo, hn, if_false, List.mem_append, List.mem_singleton] at hc
      rcases hc with hc | hc
      · exact ih (n / 10) c hc
      · exact ⟨n % 10, Nat.mod_lt n (by norm_num), hc⟩

theorem natVal_natCharsGo (fuel : ℕ) :
    ∀ n : ℕ, n ≤ fuel → natVal (natCharsGo fuel n) = n := by
  induction fuel with
  | zero =>
    intro n hn
    interval_cases n
    rfl
  | succ fuel ih =>
    intro n hn
    by_cases h0 : n = 0
    · simp [natCharsGo, h0, natVal]
    · have hdiv : n / 10 ≤ fuel := by
        have : n / 10 < n := Nat.div_lt_self (Nat.pos_of_ne_zero h0) (by norm_num)
        omega
      simp only [natCharsGo, h0, if_false]
      rw [natVal_append_digit, ih (n / 10) hdiv,
        charVal_digitChar (n % 10) (Nat.mod_lt n (by norm_num))]
      omega

theorem natVal_natChars (n : ℕ) : natVal (natChars n) = n := by
  by_cases h : n = 0
  · subst h; rfl
  · simp only [natChars, h, if_false]
    exact natVal_natCharsGo n n le_rfl

theorem natChars_mem (n : ℕ) (c : Char) (hc : c ∈ natChars n) :
    ∃ d, d < 10 ∧ c = digitChar d := by
  by_cases h : n = 0
  · subst h
    simp only [natChars, if_true, List.mem_singleton] at hc
    exact ⟨0, by norm_num, by rw [hc]; rfl⟩
  · simp only [natChars, h, if_false] at hc
    exact natCharsGo_mem n n c hc

theorem natChars_ne_nil (n : ℕ) : natChars n ≠ [] := by
  by_cases h : n = 0
  · subst h; decide
  · simp only [natChars, h, if_false]
    have h1 : 1 ≤ n := Nat.pos_of_ne_zero h
    rcases n with _ | m
    · omega
    · simp [natCharsGo, h]

theorem pad2_mem (n : ℕ) (c : Char) (hc : c ∈ pad2 n) :
    ∃ d, d < 10 ∧ c = digitChar d := by
  by_cases h : n < 10
  · simp only [pad2, h, if_true, List.mem_cons] at hc
    rcases hc with hc | hc
    · exact ⟨0, by norm_num, hc⟩
    · exact natChars_mem n c hc
  · simp only [pad2, h, if_false] at hc
    exact natChars_mem n c hc

theorem natVal_pad2 (n : ℕ) : natVal (pad2 n) = n := by
  by_cases h : n < 10
  · simp only [pad2, h, if_true]
    have : natVal ('0' :: natChars n)
        = (natChars n).foldl (fun a c => 10 * a + charVal c) 0 := by
      simp [natVal, charVal]
    rw [this]
    exact natVal_natChars n
  · simp only [pad2, h, if_false]
    exact natVal_natChars n

theorem pad2_ne_nil (n : ℕ) : pad2 n ≠ [] := by
  by_cases h : n < 10
  · simp [pad2, h]
  · simp only [pad2, h, if_false]
    exact natChars_ne_nil n

theorem natChars_all_digits (n : ℕ) : (natChars n).all Char.isDigit = true := by
  rw [List.all_eq_true]
  intro c hc
  rcases natChars_mem n c hc with ⟨d, hd, rfl⟩
  exact digitChar_isDigit d hd

theorem pad2_all_digits (n : ℕ) : (pad2 n).all Char.isDigit = true := by
  rw [List.all_eq_true]
  intro c hc
  rcases pad2_mem n c hc with ⟨d, hd, rfl⟩
  exact digitChar_isDigit d hd

theorem colon_not_mem_natChars (n : ℕ) : ':' ∉ natChars n := by
  intro h
  rcases natChars_mem n ':' h with ⟨d, hd, heq⟩
  exact digitChar_ne_colon d hd heq.symm

theorem colon_not_mem_pad2 (n : ℕ) : ':' ∉ pad2 n := by
  intro h
  rcases pad2_mem n ':' h with ⟨d, hd, heq⟩
  exact digitChar_ne_colon d hd heq.symm

theorem pythonInt_digits (cs : List Char) (hne : cs ≠ [])
    (hdig : cs.all Char.isDigit = true) : pythonInt cs = some ((natVal cs : ℤ)) := by
  cases cs with
  | nil => exact absurd rfl hne
  | cons c rest =>
    have hc : c.isDigit = true :=
      List.all_eq_true.mp hdig c (List.mem_cons_self c rest)
    have hdash : ¬ (c = '-') := by
      intro h
      rw [h] at hc
      exact absurd hc (by decide)
    have hplus : ¬ (c = '+') := by
      intro h
      rw [h] at hc
      exact absurd hc (by decide)
    simp [pythonInt, hdash, hplus, hdig]

theorem pySplit_no_sep (sep : Char) :
    ∀ cs : List Char, sep ∉ cs → pySplit sep cs = [cs] := by
  intro cs
  induction cs with
  | nil => intro _; rfl
  | cons c rest ih =>
    intro h
    rw [List.mem_cons] at h
    push_neg at h
    have hc : ¬ (c = sep) := fun hc => h.1 hc.symm
    simp only [pySplit, hc, if_false, ih h.2]

theorem pySplit_append (sep : Char) :
    ∀ xs ys : List Char, sep ∉ xs →
      pySplit sep (xs ++ sep :: ys) = xs :: pySplit sep ys := by
  intro xs
  induction xs with
  | nil => intro ys _; simp [pySplit]
  | cons c xs ih =>
    intro ys h
    rw [List.mem_cons] at h
    push_neg at h
    have hc : ¬ (c = sep) := fun hc => h.1 hc.symm
    have ihy : pySplit sep (xs.append (sep :: ys)) = xs :: pySplit sep ys := ih ys h.2
    simp only [List.cons_append, pySplit, hc, if_false, ihy]

theorem intList_some :
    ∀ (fs : List (List Char)) (l : List ℤ), intList fs = some l →
      l.length = fs.length ∧ ∀ f ∈ fs, (pythonInt f).isSome := by
  intro fs
  induction fs with
  | nil =>
    intro l h
    simp only [intList, Option.some_inj] at h
    subst h
    simp
  | cons p rest ih =>
    intro l h
    cases hp : pythonInt p with
    | none =>
      simp only [intList, hp] at h
      exact Option.noConfusion h
    | some v =>
      cases hr : intList rest with
      | none =>
        simp only [intList, hp, hr] at h
        exact Option.noConfusion h
      | some vs =>
        simp only [intList, hp, hr, Option.some_inj] at h
        subst h
        rcases ih vs hr with ⟨hlen, hmem⟩
        refine ⟨by simp [hlen], ?_⟩
        intro f hf
        rcases List.mem_cons.mp hf with hf1 | hf2
        · subst hf1
          simp [hp]
        · exact hmem f hf2

/-! ### Claim C6 -/

/-- C6: the Time Codec round trip.  Parsing any canonical two-field
`M:S` string (minutes in plain decimal, seconds zero-padded to two
digits and below 60) yields `(M * 60 + S) * 1000` milliseconds, and
re-formatting `divmod(parse(s) // 1000, 60)` returns the string
unchanged; and parsing fails for any text that does not split into 2 or
3 colon-separated integer fields. -/
theorem c6_time_codec_roundtrip :
    (∀ m s : ℕ, convert_time_to_ms (fmtTime m s) = some (((m : ℤ) * 60 + (s : ℤ)) * 1000)) ∧
    (∀ (m s : ℕ) (v : ℤ), s < 60 → convert_time_to_ms (fmtTime m s) = some v →
      fmtTime ((v.toNat / 1000) / 60) ((v.toNat / 1000) % 60) = fmtTime m s) ∧
    (∀ t : String, ¬ timeFieldsOK t → convert_time_to_ms t = none) := by
  have hparse : ∀ m s : ℕ,
      convert_time_to_ms (fmtTime m s) = some (((m : ℤ) * 60 + (s : ℤ)) * 1000) := by
    intro m s
    have hdata : (fmtTime m s).data = natChars m ++ ':' :: pad2 s := rfl
    have hsplit : pySplit ':' (fmtTime m s).data = [natChars m, pad2 s] := by
      rw [hdata, pySplit_append ':' (natChars m) (pad2 s) (colon_not_mem_natChars m),
        pySplit_no_sep ':' (pad2 s) (colon_not_mem_pad2 s)]
    have hm : pythonInt (natChars m) = some ((m : ℤ)) := by
      rw [pythonInt_digits (natChars m) (natChars_ne_nil m) (natChars_all_digits m),
        natVal_natChars]
    have hsx : pythonInt (pad2 s) = some ((s : ℤ)) := by
      rw [pythonInt_digits (pad2 s) (pad2_ne_nil s) (pad2_all_digits s), natVal_pad2]
    have hint : intList (pySplit ':' (fmtTime m s).data) = some [(m : ℤ), (s : ℤ)] := by
      rw [hsplit]
      simp [intList, hm, hsx]
    simp only [convert_time_to_ms, hint]
    norm_num
  refine ⟨hparse, ?_, ?_⟩
  · intro m s v hs hv
    rw [hparse m s] at hv
    have hv2 : v = ((m : ℤ) * 60 + (s : ℤ)) * 1000 := (Option.some_inj.mp hv).symm
    have h1 : (v.toNat / 1000) / 60 = m := by omega
    have h2 : (v.toNat / 1000) % 60 = s := by omega
    rw [h1, h2]
  · intro t h
    by_contra hne
    apply h
    cases hli : intList (pySplit ':' t.data) with
    | none => simp only [convert_time_to_ms, hli] at hne; exact absurd trivial hne
    | some l =>
      rcases intList_some (pySplit ':' t.data) l hli with ⟨hlen, hmem⟩
      rcases l with _ | ⟨a, _ | ⟨b, _ | ⟨c, _ | ⟨d, l⟩⟩⟩⟩
      · simp only [convert_time_to_ms, hli] at hne
        exact absurd trivial hne
      · simp only [convert_time_to_ms, hli] at hne
        exact absurd trivial hne
      · exact ⟨Or.inl hlen.symm, fun f hf => hmem f hf⟩
      · exact ⟨Or.inr hlen.symm, fun f hf => hmem f hf⟩
      · simp only [convert_time_to_ms, hli] at hne
        exact absurd trivial hne

/-- Witness for C6 at the concrete timestamp 2:30 and the malformed
text "abc". -/
theorem c6_time_codec_roundtrip_witness :
    convert_time_to_ms (fmtTime 2 30) = some (((2 : ℤ) * 60 + (30 : ℤ)) * 1000) ∧
    fmtTime (((((2 : ℤ) * 60 + (30 : ℤ)) * 1000).toNat / 1000) / 60)
      (((((2 : ℤ) * 60 + (30 : ℤ)) * 1000).toNat / 1000) % 60) = fmtTime 2 30 ∧
    convert_time_to_ms "abc" = none :=
  ⟨c6_time_codec_roundtrip.1 2 30,
   c6_time_codec_roundtrip.2.1 2 30 (((2 : ℤ) * 60 + (30 : ℤ)) * 1000) (by decide)
     (c6_time_codec_roundtrip.1 2 30),
   c6_time_codec_roundtrip.2.2 "abc" (by decide)⟩

/-! ### Claim C5: counterexample and witness -/

/-- C5 counterexample: two distinct filenames whose differently
zero-padded time fields normalize to the same key.  The wavs runner
never adds keys to the processed set during a run, so one run over both
files writes the key (v, 1:05, 2:10) twice: the artifact keys are not
duplicate-free. -/
theorem c5_wavs_duplicate_keys :
    ¬ ((wavsRun (fun _ => Except.ok "empathetic") (fun _ => "neutral")
        ["v_1-05_2-10.wav", "v_1-5_2-10.wav"] []).map WavRow.key).Nodup := by
  decide

/-- Witness for the C5 amended theorem on a concrete run. -/
theorem c5_runbatch_keys_nodup_witness :
    (processedKeys (runBatch (fun s => s.2) [(⟨"v", "0:10", "0:20"⟩, "5"),
      (⟨"v", "0:10", "0:20"⟩, "4")] ([] : List (SegKey × String)))).Nodup :=
  c5_runbatch_keys_nodup (fun s => s.2) [(⟨"v", "0:10", "0:20"⟩, "5"),
    (⟨"v", "0:10", "0:20"⟩, "4")] [] (by decide)

/-! ### Claim C7 -/

/-- C7 counterexample: a run of the wavs script over two files in which
the classifier call raises on the first file.  The exception is caught
at the per-segment loop boundary, NOT recorded as a sentinel in an
output row: the artifact contains a row for the second file only, so
the first key has no row at all (the batch does continue, but the
claim's "recorded in that segment's output row" is false). -/
theorem c7_wavs_failure_drops_row :
    (wavsRun (fun f => if f = "a_1-2_3-4.wav" then Except.error "boom"
        else Except.ok "neutral") (fun _ => "neutral")
      ["a_1-2_3-4.wav", "b_1-2_3-4.wav"] []).map WavRow.key
      = [⟨"b", "1:02", "3:04"⟩] := by
  decide

/-- C7 amended: in the transcript-rating scripts every rater-call
failure is caught at the call boundary and becomes a sentinel string in
the row ("Error" in auto-classify.py, "Error: ..." in the gpt4o
script), and the runner still reaches every segment of the stream; in
the wav scripts an empty or unparseable response becomes the
"NO_RESPONSE" sentinel row, while a raised call is caught one level up
and yields no row for that segment, the loop continuing with the
rest. -/
theorem c7_failure_sentinel_and_continue :
    (∀ e : String, get_gpt_rating (Except.error e) = "Error") ∧
    (∀ e : String, call_llm (Except.error e) = "Error: " ++ e) ∧
    classify_audio_post none = "NO_RESPONSE" ∧
    (∀ (σ α : Type) (worker : SegKey × σ → α) (segs : List (SegKey × σ))
       (art : List (SegKey × α)) (s : SegKey × σ), s ∈ segs →
       s.1 ∈ processedKeys (runBatch worker segs art)) ∧
    (∀ (classify : String → Except String String) (gt : SegKey → String)
       (already : List SegKey) (f : String) (rest : List String)
       (art : List WavRow) (e : String),
       mkSegKey (extract_video_info f) ∉ already → classify f = Except.error e →
       wavsRunAux classify gt already (f :: rest) art
         = wavsRunAux classify gt already rest art) := by
  refine ⟨fun e => rfl, fun e => rfl, rfl, ?_, ?_⟩
  · intro σ α worker segs art s hs
    exact runBatchAux_complete worker segs art (processedKeys art) (fun k hk => hk) s hs
  · intro classify gt already f rest art e hnot herr
    simp only [wavsRunAux, hnot, if_false, herr]

/-- Witness for C7 amended at concrete inputs. -/
theorem c7_failure_sentinel_and_continue_witness :
    get_gpt_rating (Except.error "boom") = "Error" ∧
    call_llm (Except.error "boom") = "Error: " ++ "boom" ∧
    classify_audio_post none = "NO_RESPONSE" ∧
    SegKey.mk "v" "0:10" "0:20" ∈ processedKeys (runBatch (fun s => s.2)
      [(⟨"v", "0:10", "0:20"⟩, "t")] ([] : List (SegKey × String))) ∧
    wavsRunAux (fun _ => Except.error "boom") (fun _ => "neutral") []
        ["a_1-2_3-4.wav"] []
      = wavsRunAux (fun _ => Except.error "boom") (fun _ => "neutral") [] [] [] :=
  ⟨c7_failure_sentinel_and_continue.1 "boom",
   c7_failure_sentinel_and_continue.2.1 "boom",
   c7_failure_sentinel_and_continue.2.2.1,
   c7_failure_sentinel_and_continue.2.2.2.1 String String (fun s => s.2)
     [(⟨"v", "0:10", "0:20"⟩, "t")] [] (⟨"v", "0:10", "0:20"⟩, "t") (by decide),
   c7_failure_sentinel_and_continue.2.2.2.2 (fun _ => Except.error "boom")
     (fun _ => "neutral") [] "a_1-2_3-4.wav" [] [] "boom" (by decide) rfl⟩

theorem extractorProcess_mem {α : Type} (avail : String → Bool)
    (feats : ExtractorInRow → Option α) :
    ∀ (rows : List ExtractorInRow) (r : ExtractorInRow) (f : α),
      r ∈ rows → avail r.videoId = true → feats r = some f →
      (r, f) ∈ extractorProcess avail feats rows := by
  intro rows
  induction rows with
  | nil => intro r f hr _ _; cases hr
  | cons t rest ih =>
    intro r f hr ha hf
    rcases List.mem_cons.mp hr with hr1 | hr2
    · subst hr1
      simp only [extractorProcess, ha, if_true, hf]
      exact List.mem_cons_self _ _
    · by_cases hat : avail t.videoId
      · cases hft : feats t with
        | some g =>
          simp only [extractorProcess, hat, if_true, hft]
          exact List.mem_cons_of_mem _ (ih r f hr2 ha hf)
        | none =>
          simp only [extractorProcess, hat, if_true, hft]
          exact ih r f hr2 ha hf
      · simp only [extractorProcess, hat, if_false]
        exact ih r f hr2 ha hf

/-! ### Claim C8 -/

/-- C8: a segment whose full-source audio is unavailable is skipped,
not fatal: it contributes no feature row, the rest of the stream is
processed exactly as if the segment were absent, and — since the
extractor keeps no processed-key set at all — a later run in which the
audio is available does produce its row (eligible for retry). -/
theorem c8_missing_audio_skip_and_retry {α : Type} (avail : String → Bool)
    (feats : ExtractorInRow → Option α) (r : ExtractorInRow)
    (rest : List ExtractorInRow) (hmiss : avail r.videoId = false) :
    extractorProcess avail feats (r :: rest) = extractorProcess avail feats rest ∧
    (∀ (avail2 : String → Bool) (f : α), avail2 r.videoId = true →
      feats r = some f → (r, f) ∈ extractorProcess avail2 feats (r :: rest)) := by
  constructor
  · simp [extractorProcess, hmiss]
  · intro avail2 f ha hf
    exact extractorProcess_mem avail2 feats (r :: rest) r f
      (List.mem_cons_self r rest) ha hf

/-- Witness for C8 on a concrete two-row stream. -/
theorem c8_missing_audio_skip_and_retry_witness :
    extractorProcess (fun v => v = "w") (fun _ => some "feat")
        [⟨"v", "0:10", "0:20"⟩, ⟨"w", "0:30", "0:40"⟩]
      = extractorProcess (fun v => v = "w") (fun _ => some "feat")
        [⟨"w", "0:30", "0:40"⟩] ∧
    (ExtractorInRow.mk "v" "0:10" "0:20", "feat") ∈
      extractorProcess (fun _ => true) (fun _ => some "feat")
        [⟨"v", "0:10", "0:20"⟩, ⟨"w", "0:30", "0:40"⟩] :=
  ⟨(c8_missing_audio_skip_and_retry (fun v => v = "w") (fun _ => some "feat")
      ⟨"v", "0:10", "0:20"⟩ [⟨"w", "0:30", "0:40"⟩] (by decide)).1,
   (c8_missing_audio_skip_and_retry (fun v => v = "w") (fun _ => some "feat")
      ⟨"v", "0:10", "0:20"⟩ [⟨"w", "0:30", "0:40"⟩] (by decide)).2
     (fun _ => true) "feat" rfl rfl⟩

/-! ### Claim C10 -/

/-- C10: every extractor run truncates the feature artifact and writes
a fresh header: the resulting artifact is the same whatever the
previous artifact contained, it is exactly the header followed by the
rows of this run, and every segment is reprocessed from scratch — a row
present in the previous artifact is computed and written again rather
than skipped (no ProcessedKeySet exists for this artifact; only the
audio download cache, the `avail` parameter, persists between runs). -/
theorem c10_extractor_fresh_rewrite {α : Type}
    (prev prev2 : List (ExtractorLine α)) (avail : String → Bool)
    (feats : ExtractorInRow → Option α) (rows : List ExtractorInRow) :
    extractorArtifact prev avail feats rows
      = extractorArtifact prev2 avail feats rows ∧
    extractorArtifact prev avail feats rows
      = ExtractorLine.header ::
          (extractorProcess avail feats rows).map (fun p => ExtractorLine.row p.1 p.2) ∧
    (∀ (r : ExtractorInRow) (f : α), r ∈ rows → avail r.videoId = true →
      feats r = some f →
      ExtractorLine.row r f ∈ extractorArtifact prev avail feats rows) := by
  refine ⟨rfl, rfl, ?_⟩
  intro r f hr ha hf
  have hmem := extractorProcess_mem avail feats rows r f hr ha hf
  simp only [extractorArtifact, List.mem_cons]
  right
  exact List.mem_map_of_mem (fun p => ExtractorLine.row p.1 p.2) hmem

/-- Witness for C10: the previous artifact already holds a row for the
segment, and the fresh run still recomputes and rewrites it. -/
theorem c10_extractor_fresh_rewrite_witness :
    extractorArtifact [ExtractorLine.row ⟨"v", "0:10", "0:20"⟩ "old"]
        (fun _ => true) (fun _ => some "new") [⟨"v", "0:10", "0:20"⟩]
      = extractorArtifact ([] : List (ExtractorLine String))
        (fun _ => true) (fun _ => some "new") [⟨"v", "0:10", "0:20"⟩] ∧
    ExtractorLine.row (ExtractorInRow.mk "v" "0:10" "0:20") "new" ∈
      extractorArtifact [ExtractorLine.row ⟨"v", "0:10", "0:20"⟩ "old"]
        (fun _ => true) (fun _ => some "new") [⟨"v", "0:10", "0:20"⟩] :=
  ⟨(c10_extractor_fresh_rewrite [ExtractorLine.row ⟨"v", "0:10", "0:20"⟩ "old"]
      [] (fun _ => true) (fun _ => some "new") [⟨"v", "0:10", "0:20"⟩]).1,
   (c10_extractor_fresh_rewrite [ExtractorLine.row ⟨"v", "0:10", "0:20"⟩ "old"]
      [] (fun _ => true) (fun _ => some "new") [⟨"v", "0:10", "0:20"⟩]).2.2
     ⟨"v", "0:10", "0:20"⟩ "new" (List.mem_cons_self _ _) rfl rfl⟩
